import Mathlib

/-!
Shallow embedding of the statistical analysis core of the survey-analysis
edge function (src/supabase/functions/analyze-survey/index.ts).

Numbers are modelled as rationals (ℚ); square roots live in ℝ.  JavaScript
cell values are modelled by `Cell`: a cell is missing (null / undefined /
the empty string — all filtered identically by the code), or a present
value carrying its string form (`String(val)`) together with its
`parseFloat` result (`none` when the parse is NaN).  JavaScript divisions
that produce NaN/Infinity are modelled as `Option` results or are excluded
by hypotheses; each such spot is noted at its definition.
-/

namespace Survey

/-- A single cell of a column.  `missing` covers null, undefined and `''`,
which the analysis code filters with one predicate (lines 78, 153).
`strv s` is a present value whose `parseFloat` is NaN; `numv s x` is a
present value with string form `s` and `parseFloat` result `x`. -/
inductive Cell where
  | missing : Cell
  | strv : String → Cell
  | numv : String → ℚ → Cell
deriving DecidableEq

/-- The presence filter `v !== null && v !== undefined && v !== ''`. -/
def Cell.isPresent : Cell → Bool
  | .missing => false
  | _ => true

/-- `parseFloat`, with NaN modelled as `none`.  `parseFloat` of null,
undefined and `''` is NaN, hence `none` for missing cells. -/
def Cell.parseNum : Cell → Option ℚ
  | .numv _ x => some x
  | _ => none

/-- `String(val)` for present cells.  Missing cells are given the string
`""`; JavaScript would give `"null"`/`"undefined"`/`""` depending on which
missing value occurred, but group labels only arise from present cells, so
the difference is unobservable unless a present cell's string is literally
`"null"` or `"undefined"`, which the model does not represent. -/
def Cell.toStr : Cell → String
  | .missing => ""
  | .strv s => s
  | .numv s _ => s

inductive VarType where
  | numeric : VarType
  | categorical : VarType
deriving DecidableEq

/-- One entry of `data.variables` (lines 10-16): the caller supplies the
name, declared type, raw values and a `missing` count. -/
structure Variable where
  name : String
  type : VarType
  values : List Cell
  missing : ℕ
deriving DecidableEq

/-- The `SurveyData` payload (lines 10-20), restricted to the fields the
statistical core reads.  The source field `variables` is spelled `vars`
because `variables` is reserved in Lean 4. -/
structure SurveyData where
  vars : List Variable
  totalRows : ℕ
deriving DecidableEq

/-- `array[idx]` on a column, out-of-range access giving undefined, which
the presence filters treat like a missing cell. -/
def getCell (v : Variable) (i : ℕ) : Cell :=
  v.values.getD i Cell.missing

/-- JavaScript `x % 1` (sign of the dividend). -/
def jsMod1 (q : ℚ) : ℚ :=
  if 0 ≤ q then q - ⌊q⌋ else q - ⌈q⌉

/-- `sortedArray[i]` for an integer index; negative or out-of-range
access (undefined in JavaScript) is given the default 0 and is excluded by
hypotheses wherever a theorem depends on it. -/
def jsGet (xs : List ℚ) (i : ℤ) : ℚ :=
  if i < 0 then 0 else xs.getD i.toNat 0

/-- `Math.min(...values)` (0 for the empty list, where JavaScript gives
Infinity; the code only applies it to nonempty lists). -/
def jsMinList (xs : List ℚ) : ℚ :=
  match xs with
  | [] => 0
  | h :: t => t.foldl min h

/-- `Math.max(...values)` (0 for the empty list, where JavaScript gives
-Infinity; the code only applies it to nonempty lists). -/
def jsMaxList (xs : List ℚ) : ℚ :=
  match xs with
  | [] => 0
  | h :: t => t.foldl max h

/-- `values.reduce((sum, val) => sum + val, 0) / values.length`
(line 90).  For the empty list JavaScript gives NaN; here 0/0 = 0. -/
def jsMean (xs : List ℚ) : ℚ := xs.sum / xs.length

/-- The population variance of `calculateStandardDeviation`
(lines 337-341): `Σ (val - mean)² / n`. -/
def jsVariance (xs : List ℚ) : ℚ :=
  (xs.map (fun x => (x - jsMean xs) ^ 2)).sum / xs.length

/-- `calculateStandardDeviation` (lines 337-341): the square root of the
population variance. -/
noncomputable def calculateStandardDeviation (xs : List ℚ) : ℝ :=
  Real.sqrt (jsVariance xs)

/-- `calculateSkewness` (lines 343-350):
`(n / ((n-1)(n-2))) * Σ ((x-mean)/std)³`.  The JavaScript result is
non-finite (NaN or ±Infinity) exactly when `n ≤ 2` (the coefficient
divides by zero) or `std = 0` (each summand divides by zero); those cases
are modelled as `none`. -/
noncomputable def calculateSkewness (values : List ℚ) : Option ℝ :=
  let n := values.length
  if n ≤ 2 ∨ jsVariance values = 0 then none
  else
    some (((n : ℝ) / (((n : ℝ) - 1) * ((n : ℝ) - 2))) *
      (values.map (fun x =>
        (((x - jsMean values : ℚ) : ℝ) / Real.sqrt (jsVariance values)) ^ 3)).sum)

/-- `calculateKurtosis` (lines 352-359):
`(n(n+1)/((n-1)(n-2)(n-3))) * Σ ((x-mean)/std)⁴ − 3(n-1)²/((n-2)(n-3))`.
Non-finite (modelled `none`) exactly when `n ≤ 3` or `std = 0`. -/
noncomputable def calculateKurtosis (values : List ℚ) : Option ℝ :=
  let n := values.length
  if n ≤ 3 ∨ jsVariance values = 0 then none
  else
    some (((n : ℝ) * ((n : ℝ) + 1) / (((n : ℝ) - 1) * ((n : ℝ) - 2) * ((n : ℝ) - 3))) *
      (values.map (fun x =>
        (((x - jsMean values : ℚ) : ℝ) / Real.sqrt (jsVariance values)) ^ 4)).sum -
      3 * ((n : ℝ) - 1) ^ 2 / (((n : ℝ) - 2) * ((n : ℝ) - 3)))

/-- `getPercentile` (lines 326-335): linear-interpolation percentile,
`index = (n-1)·p`, interpolating between the floor and ceil neighbours. -/
def getPercentile (sortedArray : List ℚ) (percentile : ℚ) : ℚ :=
  let index := ((sortedArray.length : ℚ) - 1) * percentile
  let lower := ⌊index⌋
  let upper := ⌈index⌉
  let weight := jsMod1 index
  if (sortedArray.length : ℤ) ≤ upper then jsGet sortedArray ((sortedArray.length : ℤ) - 1)
  else jsGet sortedArray lower * (1 - weight) + jsGet sortedArray upper * weight

/-- `calculateWeightedMean` (lines 361-365): `Σ valᵢ·weightᵢ / Σ weight`.
The source indexes `weights[idx]` for `idx` below `values.length`; every
call site supplies at least `values.length` weights, so `zipWith`
matches.  An empty weight list gives NaN in JavaScript and 0/0 = 0 here;
theorems exclude it. -/
def calculateWeightedMean (values weights : List ℚ) : ℚ :=
  (List.zipWith (· * ·) values weights).sum / weights.sum

/-- `calculateMarginOfError` (lines 367-374):
`1.96 · sqrt(weightedVariance / effectiveSampleSize)`. -/
noncomputable def calculateMarginOfError (values weights : List ℚ) : ℝ :=
  let wm := calculateWeightedMean values weights
  let weightedVariance := (List.zipWith (fun x w => w * (x - wm) ^ 2) values weights).sum / weights.sum
  let effectiveSampleSize := (weights.sum) ^ 2 / (weights.map (fun w => w * w)).sum
  1.96 * Real.sqrt ((weightedVariance / effectiveSampleSize : ℚ))

/-- The numeric variant of a `ColumnAnalysis` (lines 86-99). -/
structure NumStats where
  mean : ℚ
  median : ℚ
  q1 : ℚ
  q3 : ℚ
  min : ℚ
  max : ℚ
  std : ℝ
  skewness : Option ℝ
  kurtosis : Option ℝ

/-- The categorical variant of a `ColumnAnalysis` (lines 110-119). -/
structure CatStats where
  unique : ℕ
  mode : Option String
  modeCount : ℕ
  valueCounts : List (String × ℕ)
  topValues : List (String × ℕ)
deriving DecidableEq

/-- The kind-specific payload of a column analysis. -/
inductive ColKind where
  | num : NumStats → ColKind
  | cat : CatStats → ColKind

/-- One per-column analysis record; `count` and `missing` are common to
both variants. -/
structure ColumnAnalysis where
  count : ℕ
  missing : ℕ
  kind : ColKind

/-- The present values of a column (line 78). -/
def presentCells (cs : List Cell) : List Cell := cs.filter Cell.isPresent

/-- `validValues.map(parseFloat).filter(v => !isNaN(v))` (line 81). -/
def numericParsed (v : Variable) : List ℚ :=
  (presentCells v.values).filterMap Cell.parseNum

/-- The parsed numeric values sorted ascending (line 84).  The source
sorts with `(a, b) => a - b`; any correct sort yields the same list. -/
def sortedVals (v : Variable) : List ℚ :=
  List.insertionSort (· ≤ ·) (numericParsed v)

/-- One step of building the `valueCounts` frequency object
(lines 102-106), preserving first-seen key order. -/
def bumpCount : List (String × ℕ) → String → List (String × ℕ)
  | [], s => [(s, 1)]
  | (k, c) :: rest, s => if k = s then (k, c + 1) :: rest else (k, c) :: bumpCount rest s

/-- The `valueCounts` frequency table in first-seen key order. -/
def countValues (l : List String) : List (String × ℕ) := l.foldl bumpCount []

/-- Descending-by-count comparison used in
`Object.entries(valueCounts).sort((a, b) => b[1] - a[1])` (line 108);
insertion sort is stable, matching the (stable) JavaScript sort. -/
def byCountDesc (a b : String × ℕ) : Prop := b.2 ≤ a.2

instance : DecidableRel byCountDesc := fun a b => inferInstanceAs (Decidable (b.2 ≤ a.2))

/-- The per-variable body of `performStatisticalAnalysis` (lines 77-121).
A numeric variable with no parseable present value yields `none`: the
source only assigns `analysis[variable.name]` when
`numericValues.length > 0`. -/
noncomputable def analyzeVariable (v : Variable) : Option ColumnAnalysis :=
  match v.type with
  | .numeric =>
    let numericValues := sortedVals v
    if numericValues.isEmpty then none
    else some
      { count := numericValues.length
        missing := v.missing
        kind := .num
          { mean := jsMean numericValues
            median := getPercentile numericValues (1/2)
            q1 := getPercentile numericValues (1/4)
            q3 := getPercentile numericValues (3/4)
            min := jsMinList numericValues
            max := jsMaxList numericValues
            std := calculateStandardDeviation numericValues
            skewness := calculateSkewness numericValues
            kurtosis := calculateKurtosis numericValues } }
  | .categorical =>
    let validValues := presentCells v.values
    let valueCounts := countValues (validValues.map Cell.toStr)
    let sortedCounts := List.insertionSort byCountDesc valueCounts
    some
      { count := validValues.length
        missing := v.missing
        kind := .cat
          { unique := valueCounts.length
            mode := sortedCounts.head?.map Prod.fst
            modeCount := (sortedCounts.head?.map Prod.snd).getD 0
            valueCounts := valueCounts
            topValues := sortedCounts.take 5 } }

/-- `performStatisticalAnalysis` (lines 74-124): the per-column analysis
map, modelled as an association list in variable order (variable names
are unique per the data model, so the JavaScript object is faithfully an
association list). -/
noncomputable def performStatisticalAnalysis (data : SurveyData) : List (String × ColumnAnalysis) :=
  data.vars.filterMap fun v => (analyzeVariable v).map fun a => (v.name, a)

/-- One histogram bin (lines 381-385); the `bin` label string is
presentation (`toFixed`) and is represented by the `range` bounds. -/
structure HistBin where
  lo : ℚ
  hi : ℚ
  count : ℕ
deriving DecidableEq

/-- The bin index `Math.min(Math.floor((val - min) / binWidth), bins - 1)`
(line 388), meaningful only when `binWidth ≠ 0`. -/
def binIdx (mn width : ℚ) (bins : ℕ) (val : ℚ) : ℤ :=
  min ⌊(val - mn) / width⌋ ((bins : ℤ) - 1)

/-- `generateHistogramData` (lines 376-393).  When `binWidth = 0` (a
constant column) JavaScript computes `(val - min) / 0 = 0/0 = NaN` as the
bin index and `histogram[NaN].count++` throws a TypeError, so no
histogram is produced; that outcome is modelled as `none`.  (The empty
input, which JavaScript would survive with infinite bounds, also maps to
`none`; the pipeline never passes an empty list.) -/
def generateHistogramData (values : List ℚ) (bins : ℕ) : Option (List HistBin) :=
  let mn := jsMinList values
  let mx := jsMaxList values
  let binWidth := (mx - mn) / bins
  if binWidth = 0 then none
  else some ((List.range bins).map fun (i : ℕ) =>
    { lo := mn + (i : ℚ) * binWidth
      hi := mn + ((i : ℚ) + 1) * binWidth
      count := (values.filter fun val => binIdx mn binWidth bins val = (i : ℤ)).length })

/-- The numeric branch of `generateVisualizationData` (lines 296-307):
the histogram input is `variable.values.map(parseFloat).filter(!isNaN)`
with 20 bins. -/
def numericHistogram (v : Variable) : Option (List HistBin) :=
  generateHistogramData (v.values.filterMap Cell.parseNum) 20

/-- One element of the caller-supplied `parameters` array
(lines 126-132 and the setup component): `weightVariable` is optional and
the empty string is falsy in the source, both modelled as `none`. -/
structure EstRequest where
  estimatingParameter : String
  baseParameter : String
  aggregationType : String
  weightVariable : Option String
deriving DecidableEq

/-- One group estimate (lines 188-198). -/
structure GroupEstimate where
  group : String
  estimate : ℚ
  marginOfError : ℝ
  confidenceInterval : ℝ × ℝ
  sampleSize : ℕ
  weightedN : ℚ

/-- One `ParameterEstimate` (lines 22-35, 201-207). -/
structure ParameterEstimate where
  estimatingParameter : String
  baseParameter : String
  aggregationType : String
  weightVariable : Option String
  groups : List GroupEstimate

/-- Helper of `cellDedup`, keeping cells not yet seen. -/
def cellDedupAux : List Cell → List Cell → List Cell
  | [], _ => []
  | c :: rest, seen =>
    if c ∈ seen then cellDedupAux rest seen
    else c :: cellDedupAux rest (c :: seen)

/-- First-occurrence deduplication, as `[...new Set(xs)]` iterates
insertion order. -/
def cellDedup (l : List Cell) : List Cell := cellDedupAux l []

/-- `baseVar` resolution (lines 129-130): `null` unless `baseParameter`
differs from the `'None'` sentinel and names an existing column. -/
def baseVarOf (data : SurveyData) (r : EstRequest) : Option Variable :=
  if r.baseParameter ≠ "None" then data.vars.find? (fun v => v.name == r.baseParameter)
  else none

/-- `weightVar` resolution (lines 131-132). -/
def weightVarOf (data : SurveyData) (r : EstRequest) : Option Variable :=
  match r.weightVariable with
  | some w => data.vars.find? (fun v => v.name == w)
  | none => none

/-- The group label list (lines 136-138): the distinct present values of
the grouping column in first-seen order, as strings; `['Overall']` when
there is no grouping column. -/
def groupLabels (bv : Option Variable) : List String :=
  match bv with
  | some b => (cellDedup (b.values.filter Cell.isPresent)).map Cell.toStr
  | none => ["Overall"]

/-- The row-index set of a group (lines 140-149).  The source matches
rows by `String(val) === group`; since labels come from present cells,
the comparison is modelled as presence plus string equality (see
`Cell.toStr` on the unobservable `String(null)` difference). -/
def groupRowIdx (bv : Option Variable) (ev : Variable) (label : String) : List ℕ :=
  match bv with
  | some b =>
    if label ≠ "Overall" then
      (List.range b.values.length).filter fun i =>
        (getCell b i).isPresent && ((getCell b i).toStr == label)
    else List.range ev.values.length
  | none => List.range ev.values.length

/-- The per-row weights of a group (lines 155-157):
`parseFloat(weightVar.values[idx]) || 1` — NaN and 0 are falsy, so an
unparseable or zero weight becomes 1 — or all-ones without a weight
column. -/
def rowWeights (wv : Option Variable) (idxs : List ℕ) : List ℚ :=
  match wv with
  | some w => idxs.map fun i =>
      match (getCell w i).parseNum with
      | some x => if x = 0 then 1 else x
      | none => 1
  | none => List.replicate idxs.length 1

/-- The body of the per-group closure (lines 140-198), producing one
`GroupEstimate` for a label.  Branches that JavaScript leaves untaken
fall through to estimate 0 and margin 0 (lines 159-160).  Divisions that
would be NaN in JavaScript (empty groups) are 0 here and excluded by
hypotheses where relevant. -/
noncomputable def mkGroupEstimate (ev : Variable) (bv wv : Option Variable)
    (aggregationType : String) (label : String) : GroupEstimate :=
  let idxs := groupRowIdx bv ev label
  let groupValues := (idxs.map (getCell ev)).filter Cell.isPresent
  let weights := rowWeights wv idxs
  let numericValues := groupValues.filterMap Cell.parseNum
  let em : ℚ × ℝ :=
    if aggregationType = "Mean" ∧ ev.type = .numeric then
      let validWeights := weights.take numericValues.length
      (calculateWeightedMean numericValues validWeights,
       calculateMarginOfError numericValues validWeights)
    else if aggregationType = "Sum" ∧ ev.type = .numeric then
      (numericValues.sum,
       Real.sqrt (numericValues.length) * calculateStandardDeviation numericValues /
         Real.sqrt (numericValues.length))
    else if aggregationType = "Proportion" then
      let successes :=
        if ev.type = .categorical then
          match groupValues.head? with
          | some t => (groupValues.filter (· = t)).length
          | none => 0
        else (groupValues.filter fun c => c.parseNum == some 1).length
      let est : ℚ := (successes : ℚ) / (groupValues.length : ℚ)
      (est, 1.96 * Real.sqrt ((est * (1 - est) / (groupValues.length : ℚ) : ℚ)))
    else if aggregationType = "Count" then
      ((groupValues.length : ℚ), Real.sqrt (groupValues.length : ℕ))
    else if aggregationType = "Median" ∧ ev.type = .numeric then
      (getPercentile (List.insertionSort (· ≤ ·) numericValues) (1/2),
       1.57 * calculateStandardDeviation numericValues / Real.sqrt (numericValues.length))
    else (0, 0)
  { group := label
    estimate := em.1
    marginOfError := em.2
    confidenceInterval := (max 0 ((em.1 : ℝ) - em.2), (em.1 : ℝ) + em.2)
    sampleSize := groupValues.length
    weightedN := weights.sum }

/-- `computeParameterEstimates` (lines 126-209).  A request whose
`estimatingParameter` names no column makes the callback return `null`,
which `.filter(Boolean)` removes: modelled by `filterMap` dropping
`none`. -/
noncomputable def computeParameterEstimates (data : SurveyData)
    (parameters : List EstRequest) : List ParameterEstimate :=
  parameters.filterMap fun param =>
    match data.vars.find? (fun v => v.name == param.estimatingParameter) with
    | none => none
    | some estimatingVar =>
      let baseVar := baseVarOf data param
      let weightVar := weightVarOf data param
      some
        { estimatingParameter := param.estimatingParameter
          baseParameter := param.baseParameter
          aggregationType := param.aggregationType
          weightVariable := param.weightVariable
          groups := (groupLabels baseVar).map
            (mkGroupEstimate estimatingVar baseVar weightVar param.aggregationType) }

/-- The spec's weighted-mean formula `Σ(wᵢxᵢ)/Σwᵢ` (stated from the
spec's words, for comparison with the pipeline's value). -/
def specMeanEstimate (xs ws : List ℚ) : ℚ :=
  (List.zipWith (fun w x => w * x) ws xs).sum / ws.sum

/-- The spec's margin-of-error formula
`1.96 × sqrt(weightedVariance / effectiveSampleSize)` with
`weightedVariance = Σwᵢ(xᵢ−m)²/Σwᵢ` and
`effectiveSampleSize = (Σwᵢ)²/Σwᵢ²` (stated from the spec's words). -/
noncomputable def specMeanMoE (xs ws : List ℚ) : ℝ :=
  let m := specMeanEstimate xs ws
  1.96 * Real.sqrt
    (((List.zipWith (fun w x => w * (x - m) ^ 2) ws xs).sum / ws.sum) /
      ((ws.sum) ^ 2 / (ws.map fun w => w * w).sum) : ℚ)

/-- C1 counterexample input: a numeric column whose present values are
not all parseable ("abc" and "5"); its derived missing count is 0. -/
def cexVarC1 : Variable := ⟨"score", .numeric, [Cell.strv "abc", Cell.numv "5" 5], 0⟩

/-- C2 failing input: a numeric column of three identical values. -/
def constantVarC2 : Variable :=
  ⟨"x", .numeric, [Cell.numv "5" 5, Cell.numv "5" 5, Cell.numv "5" 5], 0⟩

/-- C3 counterexample dataset: one column named "age". -/
def dataC3 : SurveyData := ⟨[⟨"age", .numeric, [Cell.numv "1" 1], 0⟩], 1⟩

/-- C3 counterexample request: estimates a column that does not exist. -/
def reqC3 : EstRequest := ⟨"height", "None", "Mean", none⟩

/-- C4 counterexample dataset: one categorical column. -/
def dataC4 : SurveyData := ⟨[⟨"city", .categorical, [Cell.strv "NYC", Cell.strv "LA"], 0⟩], 2⟩

/-- C4 counterexample request: Sum aggregation on the categorical column. -/
def reqC4 : EstRequest := ⟨"city", "None", "Sum", none⟩

/-- C5 counterexample dataset: a grouping column with 3 distinct present
values and a numeric column missing at row 1 (a row of group "a"). -/
def dataC5 : SurveyData :=
  ⟨[⟨"grp", .categorical, [Cell.strv "a", Cell.strv "a", Cell.strv "b", Cell.strv "c"], 0⟩,
    ⟨"val", .numeric, [Cell.numv "1" 1, Cell.missing, Cell.numv "2" 2, Cell.numv "3" 3], 0⟩], 4⟩

/-- C5 counterexample request: grouped MEAN without a weight column. -/
def reqC5 : EstRequest := ⟨"val", "grp", "Mean", none⟩

/-- C6 counterexample dataset: the estimating column is missing at
row 0, so the present values sit at rows 1 and 2, whose own weights are
5 and 3; the positional slice instead grabs the weights 2 and 5 of
rows 0 and 1. -/
def dataC6 : SurveyData :=
  ⟨[⟨"income", .numeric, [Cell.missing, Cell.numv "10" 10, Cell.numv "20" 20], 0⟩,
    ⟨"w", .numeric, [Cell.numv "2" 2, Cell.numv "5" 5, Cell.numv "3" 3], 0⟩], 3⟩

/-- C6 counterexample request: ungrouped weighted MEAN. -/
def reqC6 : EstRequest := ⟨"income", "None", "Mean", some "w"⟩

/-- C7 counterexample input: a constant numeric column (bin width 0). -/
def cexVarC7 : Variable := ⟨"c", .numeric, [Cell.numv "5" 5, Cell.numv "5" 5], 0⟩

/-- C5 witness dataset: 3 distinct group values, estimating column
present on every row. -/
def dataC5w : SurveyData :=
  ⟨[⟨"grp", .categorical, [Cell.strv "a", Cell.strv "b", Cell.strv "c"], 0⟩,
    ⟨"val", .numeric, [Cell.numv "1" 1, Cell.numv "2" 2, Cell.numv "3" 3], 0⟩], 3⟩

/-- C5 witness request (same shape as `reqC5`). -/
def reqC5w : EstRequest := ⟨"val", "grp", "Mean", none⟩

/-- C7 witness input: a numeric column with two distinct values. -/
def histVarC7w : Variable :=
  ⟨"h", .numeric, [Cell.numv "1" 1, Cell.numv "2" 2, Cell.numv "3" 3], 0⟩

/-- C8 witness input: a numeric column with four parseable values. -/
def quartVarC8w : Variable :=
  ⟨"q", .numeric,
    [Cell.numv "4" 4, Cell.numv "1" 1, Cell.strv "x", Cell.numv "3" 3, Cell.numv "2" 2], 0⟩

end Survey

set_option allowUnsafeReducibility true

attribute [semireducible] Rat.add Rat.mul Rat.div Rat.sub Rat.inv Rat.neg

namespace Survey

theorem zipWith_mul_replicate_one (xs : List ℚ) :
    List.zipWith (· * ·) xs (List.replicate xs.length 1) = xs := by
  induction xs with
  | nil => rfl
  | cons a t ih => simp [List.replicate_succ, ih]

/-- Claim C9: the weighted mean of a non-empty list with every weight
equal to 1 equals the unweighted arithmetic mean. -/
theorem weighted_mean_ones (xs : List ℚ) (h : xs ≠ []) :
    calculateWeightedMean xs (List.replicate xs.length 1) = jsMean xs := by
  unfold calculateWeightedMean jsMean
  rw [zipWith_mul_replicate_one, List.sum_replicate]
  simp

/-- Witness for C9 at the concrete list [3, 4]. -/
theorem weighted_mean_ones_wit :
    ([(3 : ℚ), 4] ≠ []) ∧
      calculateWeightedMean [(3 : ℚ), 4] (List.replicate [(3 : ℚ), 4].length 1) =
        jsMean [(3 : ℚ), 4] :=
  ⟨by decide, weighted_mean_ones [(3 : ℚ), 4] (by decide)⟩

theorem length_filterMap_eq_of_isSome {α β : Type} (f : α → Option β) (l : List α)
    (h : ∀ a ∈ l, (f a).isSome = true) : (l.filterMap f).length = l.length := by
  induction l with
  | nil => rfl
  | cons a t ih =>
    have ha := h a (List.mem_cons_self a t)
    rw [List.filterMap_cons]
    cases hfa : f a with
    | none => rw [hfa] at ha; simp at ha
    | some b =>
      simp only [List.length_cons]
      rw [ih fun x hx => h x (List.mem_cons_of_mem a hx)]

/-- Claim C1 counterexample: on a numeric column with the present values
"abc" and "5" and derived missing count 0 (out of 2 rows), the analysis
reports count 1 and missing 0, so count + missing = 1 ≠ 2 = totalRows. -/
theorem count_missing_invariant_cex :
    cexVarC1.missing = (cexVarC1.values.filter fun c => !c.isPresent).length ∧
      (analyzeVariable cexVarC1).map (fun a => (a.count, a.missing)) = some (1, 0) ∧
      cexVarC1.values.length = 2 ∧ 1 + 0 ≠ 2 := by
  refine ⟨by decide, by decide, by decide, by decide⟩

/-- Claim C1 (amended): with the missing count derived as the number of
absent cells, categorical analyses satisfy count + missing = totalRows;
numeric analyses satisfy count + missing ≤ totalRows, with equality when
every present value parses as a number (count excludes present values
whose parse is NaN). -/
theorem count_missing_invariant (v : Variable)
    (hm : v.missing = (v.values.filter fun c => !c.isPresent).length) :
    (v.type = .categorical →
      ∀ a, analyzeVariable v = some a → a.count + a.missing = v.values.length) ∧
    (v.type = .numeric →
      ∀ a, analyzeVariable v = some a →
        a.count + a.missing ≤ v.values.length ∧
        ((∀ c ∈ v.values, c.isPresent = true → c.parseNum.isSome = true) →
          a.count + a.missing = v.values.length)) := by
  have hsplit := List.length_eq_length_filter_add (l := v.values) Cell.isPresent
  constructor
  · intro ht a h
    simp only [analyzeVariable, ht] at h
    rw [Option.some_inj] at h
    subst h
    simp only [presentCells]
    rw [hm, ← hsplit]
  · intro ht a h
    simp only [analyzeVariable, ht] at h
    by_cases he : (sortedVals v).isEmpty
    · rw [if_pos he] at h; exact absurd h (by simp)
    · rw [if_neg he, Option.some_inj] at h
      subst h
      have hlen : (sortedVals v).length = (numericParsed v).length :=
        (List.perm_insertionSort _ _).length_eq
      constructor
      · have h1 : (numericParsed v).length ≤ (presentCells v.values).length :=
          List.length_filterMap_le _ _
        simp only [hlen]
        rw [hm, hsplit]
        simp only [presentCells] at h1 ⊢
        omega
      · intro hall
        have h2 : (numericParsed v).length = (presentCells v.values).length := by
          refine length_filterMap_eq_of_isSome _ _ fun c hc => ?_
          simp only [presentCells, List.mem_filter] at hc
          exact hall c hc.1 hc.2
        simp only [hlen, h2]
        rw [hm, hsplit]
        simp [presentCells]

/-- Witness for C1 at a two-row dataset with one categorical column. -/
theorem count_missing_invariant_wit :
    ((⟨"city", .categorical, [Cell.strv "NYC", Cell.missing], 1⟩ : Variable).missing =
      ((⟨"city", .categorical, [Cell.strv "NYC", Cell.missing], 1⟩ : Variable).values.filter
        fun c => !c.isPresent).length) ∧
    ((⟨"city", .categorical, [Cell.strv "NYC", Cell.missing], 1⟩ : Variable).type = .categorical →
      ∀ a, analyzeVariable ⟨"city", .categorical, [Cell.strv "NYC", Cell.missing], 1⟩ = some a →
        a.count + a.missing =
          (⟨"city", .categorical, [Cell.strv "NYC", Cell.missing], 1⟩ : Variable).values.length) :=
  ⟨by decide, (count_missing_invariant _ (by decide)).1⟩

/-- Claim C2 (the code's behavior at the failing input): for the
constant column [5, 5, 5] the reported std is 0, but skewness and
kurtosis are the non-finite JavaScript results (0/0 inside the
standardized moments), modelled as `none` — not an InsufficientData
value of the output vocabulary, which does not exist in the code. -/
theorem skewness_nan_on_constant :
    ∃ a s, analyzeVariable constantVarC2 = some a ∧ a.kind = ColKind.num s ∧
      s.std = 0 ∧ s.skewness = none ∧ s.kurtosis = none := by
  refine ⟨_, _, rfl, rfl, ?_, ?_, ?_⟩
  · show Real.sqrt ((jsVariance (sortedVals constantVarC2) : ℚ) : ℝ) = 0
    rw [show jsVariance (sortedVals constantVarC2) = 0 from by decide]
    simp
  · show calculateSkewness (sortedVals constantVarC2) = none
    simp only [calculateSkewness]
    rw [if_pos (Or.inr (by decide))]
  · show calculateKurtosis (sortedVals constantVarC2) = none
    simp only [calculateKurtosis]
    rw [if_pos (Or.inr (by decide))]

/-- Claim C3 counterexample: a single request naming the unknown column
"height" produces an empty result list — no UnknownColumn failure is
visible and the output has 0 slots for 1 request. -/
theorem request_slots_cex : computeParameterEstimates dataC3 [reqC3] = [] := rfl

/-- Claim C3 (amended): requests whose estimating column resolves
produce exactly one result each; requests naming no column are silently
dropped, so the output can be shorter than the request list. -/
theorem request_slots (data : SurveyData) (params : List EstRequest) :
    (computeParameterEstimates data params).length =
      (params.filter fun r =>
        (data.vars.find? fun v => v.name == r.estimatingParameter).isSome).length := by
  induction params with
  | nil => rfl
  | cons p ps ih =>
    simp only [computeParameterEstimates, List.filterMap_cons, List.filter_cons] at ih ⊢
    cases h : data.vars.find? fun v => v.name == p.estimatingParameter with
    | none => simpa [h] using ih
    | some ev => simpa [h] using ih

theorem analyzeVariable_none_of_unparseable (v : Variable) (ht : v.type = .numeric)
    (hp : numericParsed v = []) : analyzeVariable v = none := by
  simp [analyzeVariable, ht, sortedVals, hp]

theorem lookup_analysis_none (l : List Variable) (nm : String)
    (h : ∀ v ∈ l, v.name = nm → v.type = .numeric ∧ numericParsed v = []) :
    (l.filterMap fun v => (analyzeVariable v).map fun a => (v.name, a)).lookup nm = none := by
  induction l with
  | nil => rfl
  | cons v t ih =>
    have hrec := ih fun w hw hwn => h w (List.mem_cons_of_mem v hw) hwn
    rw [List.filterMap_cons]
    cases hv : analyzeVariable v with
    | none => exact hrec
    | some a =>
      by_cases hn : v.name = nm
      · obtain ⟨hty, hpar⟩ := h v (List.mem_cons_self v t) hn
        rw [analyzeVariable_none_of_unparseable v hty hpar] at hv
        exact absurd hv (by simp)
      · have hne : (nm == v.name) = false := beq_false_of_ne fun hnm => hn hnm.symm
        simp only [Option.map_some', List.lookup_cons, hne]
        exact hrec

/-- Claim C10: a numeric-typed variable none of whose present values
parses as a number contributes no entry to the per-column analysis map:
its name is absent, with no zero-count record and no error. -/
theorem unparseable_numeric_absent (data : SurveyData) (nm : String)
    (h : ∀ v ∈ data.vars, v.name = nm → v.type = .numeric ∧ numericParsed v = []) :
    (performStatisticalAnalysis data).lookup nm = none := by
  unfold performStatisticalAnalysis
  exact lookup_analysis_none data.vars nm h

/-- Witness for C10 at a dataset with one all-unparseable numeric
column. -/
theorem unparseable_numeric_absent_wit :
    (∀ v ∈ (⟨[⟨"age", .numeric, [Cell.strv "n/a", Cell.missing], 1⟩], 2⟩ : SurveyData).vars,
      v.name = "age" → v.type = .numeric ∧ numericParsed v = []) ∧
    (performStatisticalAnalysis ⟨[⟨"age", .numeric, [Cell.strv "n/a", Cell.missing], 1⟩], 2⟩).lookup
      "age" = none :=
  ⟨by decide, unparseable_numeric_absent _ _ (by decide)⟩

/-- Claim C4 counterexample: a Sum request on the categorical column
"city" yields a GroupEstimate with estimate 0 (sample size 2), not an
UnsupportedAggregation failure — no failure value exists in the output
type. -/
theorem unsupported_aggregation_cex :
    ((computeParameterEstimates dataC4 [reqC4]).map fun pe =>
      pe.groups.map fun g => (g.group, g.estimate, g.sampleSize)) = [[("Overall", 0, 2)]] := by
  decide

/-- Claim C4 (amended): a Mean, Sum or Median request on a categorical
estimating column matches no aggregation branch, and every group of its
result silently carries estimate 0 and margin of error 0; no
UnsupportedAggregation error is raised (none exists in the code). -/
theorem unsupported_aggregation (data : SurveyData) (r : EstRequest) (ev : Variable)
    (hev : data.vars.find? (fun v => v.name == r.estimatingParameter) = some ev)
    (ht : ev.type = .categorical)
    (hagg : r.aggregationType = "Sum" ∨ r.aggregationType = "Mean" ∨
      r.aggregationType = "Median") :
    ∃ pe, computeParameterEstimates data [r] = [pe] ∧
      ∀ g ∈ pe.groups, g.estimate = 0 ∧ g.marginOfError = 0 := by
  have hpe : computeParameterEstimates data [r] =
      [{ estimatingParameter := r.estimatingParameter
         baseParameter := r.baseParameter
         aggregationType := r.aggregationType
         weightVariable := r.weightVariable
         groups := (groupLabels (baseVarOf data r)).map
           (mkGroupEstimate ev (baseVarOf data r) (weightVarOf data r) r.aggregationType) }] := by
    simp only [computeParameterEstimates, List.filterMap_cons, List.filterMap_nil, hev]
  refine ⟨_, hpe, ?_⟩
  intro g hg
  simp only [List.mem_map] at hg
  obtain ⟨label, _, rfl⟩ := hg
  have hnum : ev.type ≠ .numeric := by rw [ht]; simp
  have hprop : r.aggregationType ≠ "Proportion" := by
    rcases hagg with h | h | h <;> rw [h] <;> decide
  have hcount : r.aggregationType ≠ "Count" := by
    rcases hagg with h | h | h <;> rw [h] <;> decide
  simp only [mkGroupEstimate]
  rw [if_neg (by exact fun hc => hnum hc.2), if_neg (by exact fun hc => hnum hc.2),
    if_neg hprop, if_neg hcount, if_neg (by exact fun hc => hnum hc.2)]
  exact ⟨rfl, rfl⟩

theorem sum_replicate_one (n : ℕ) : (List.replicate n (1 : ℚ)).sum = n := by
  rw [List.sum_replicate]
  simp

theorem groupRowIdx_bound (bvv ev : Variable) (label : String)
    (hlen : ev.values.length = bvv.values.length) :
    ∀ i ∈ groupRowIdx (some bvv) ev label, i < ev.values.length := by
  intro i hi
  simp only [groupRowIdx] at hi
  by_cases hl : label ≠ "Overall"
  · rw [if_pos hl] at hi
    rw [hlen]
    exact List.mem_range.mp (List.mem_of_mem_filter hi)
  · rw [if_neg hl] at hi
    exact List.mem_range.mp hi

/-- Claim C5 counterexample: with groups "a", "b", "c" and the
estimating column missing on one row of group "a", the group "a"
estimate has weightedN = 2 but sampleSize = 1. -/
theorem weightedN_sampleSize_cex :
    ((computeParameterEstimates dataC5 [reqC5]).map fun pe =>
      pe.groups.map fun g => (g.group, g.weightedN, (g.sampleSize : ℚ))) =
      [[("a", 2, 1), ("b", 1, 1), ("c", 1, 1)]] ∧ (2 : ℚ) ≠ 1 :=
  ⟨by decide, by decide⟩

/-- Claim C5 (amended): a grouped unweighted MEAN request over a
grouping column with exactly 3 distinct present values produces exactly
3 GroupEstimates; each GroupEstimate has weightedN equal to the number
of rows of its group, so sampleSize ≤ weightedN, and weightedN equals
sampleSize exactly when the estimating column is present on every row
of that group (weightedN counts all group rows, sampleSize only rows
where the estimating value is present). -/
theorem weightedN_sampleSize (data : SurveyData) (r : EstRequest) (ev bvv : Variable)
    (hev : data.vars.find? (fun v => v.name == r.estimatingParameter) = some ev)
    (hagg : r.aggregationType = "Mean") (ht : ev.type = .numeric)
    (hb : r.baseParameter ≠ "None")
    (hbv : data.vars.find? (fun v => v.name == r.baseParameter) = some bvv)
    (hw : r.weightVariable = none)
    (h3 : (cellDedup (bvv.values.filter Cell.isPresent)).length = 3) :
    ∃ pe, computeParameterEstimates data [r] = [pe] ∧ pe.groups.length = 3 ∧
      List.Forall₂ (fun (label : String) (g : GroupEstimate) =>
        g.weightedN = ((groupRowIdx (baseVarOf data r) ev label).length : ℚ) ∧
        (g.sampleSize : ℚ) ≤ g.weightedN ∧
        (g.weightedN = (g.sampleSize : ℚ) ↔
          ∀ i ∈ groupRowIdx (baseVarOf data r) ev label, (getCell ev i).isPresent = true))
        (groupLabels (baseVarOf data r)) pe.groups := by
  have hbase : baseVarOf data r = some bvv := by
    unfold baseVarOf
    rw [if_pos hb, hbv]
  have hwv : weightVarOf data r = none := by
    unfold weightVarOf
    rw [hw]
  have hpe : computeParameterEstimates data [r] =
      [{ estimatingParameter := r.estimatingParameter
         baseParameter := r.baseParameter
         aggregationType := r.aggregationType
         weightVariable := r.weightVariable
         groups := (groupLabels (baseVarOf data r)).map
           (mkGroupEstimate ev (baseVarOf data r) (weightVarOf data r) r.aggregationType) }] := by
    simp only [computeParameterEstimates, List.filterMap_cons, List.filterMap_nil, hev]
  refine ⟨_, hpe, ?_, ?_⟩
  · simp [groupLabels, hbase, h3]
  · rw [List.forall₂_map_right_iff, List.forall₂_same]
    intro label hlab
    simp only [mkGroupEstimate, hwv, rowWeights]
    rw [sum_replicate_one]
    have hmaplen : ((groupRowIdx (baseVarOf data r) ev label).map (getCell ev)).length =
        (groupRowIdx (baseVarOf data r) ev label).length := List.length_map _ _
    have hle : (((groupRowIdx (baseVarOf data r) ev label).map (getCell ev)).filter
        Cell.isPresent).length ≤ (groupRowIdx (baseVarOf data r) ev label).length := by
      calc (((groupRowIdx (baseVarOf data r) ev label).map (getCell ev)).filter
            Cell.isPresent).length
          ≤ ((groupRowIdx (baseVarOf data r) ev label).map (getCell ev)).length :=
            List.length_filter_le _ _
        _ = (groupRowIdx (baseVarOf data r) ev label).length := hmaplen
    refine ⟨rfl, by exact_mod_cast hle, ?_, ?_⟩
    · intro heq
      have hnat : (((groupRowIdx (baseVarOf data r) ev label).map (getCell ev)).filter
          Cell.isPresent).length =
          ((groupRowIdx (baseVarOf data r) ev label).map (getCell ev)).length := by
        rw [hmaplen]
        exact_mod_cast heq.symm
      have hfe := (List.filter_sublist _).eq_of_length hnat
      intro i hi
      have hmemf : getCell ev i ∈ ((groupRowIdx (baseVarOf data r) ev label).map
          (getCell ev)).filter Cell.isPresent := by
        rw [hfe]
        exact List.mem_map_of_mem _ hi
      exact (List.mem_filter.mp hmemf).2
    · intro hall
      have hkeep : ((groupRowIdx (baseVarOf data r) ev label).map (getCell ev)).filter
          Cell.isPresent = ((groupRowIdx (baseVarOf data r) ev label).map (getCell ev)) := by
        rw [List.filter_eq_self]
        intro c hc
        obtain ⟨i, hi, rfl⟩ := List.mem_map.mp hc
        exact hall i hi
      rw [hkeep, hmaplen]

/-- Witness for C5 at a 3-row dataset with groups "a", "b", "c" and a
fully-present estimating column. -/
theorem weightedN_sampleSize_wit :
    ((dataC5w.vars.find? (fun v => v.name == reqC5w.estimatingParameter) =
        some ⟨"val", .numeric, [Cell.numv "1" 1, Cell.numv "2" 2, Cell.numv "3" 3], 0⟩) ∧
      reqC5w.aggregationType = "Mean" ∧ reqC5w.baseParameter ≠ "None" ∧
      reqC5w.weightVariable = none ∧
      (cellDedup ((⟨"grp", .categorical,
        [Cell.strv "a", Cell.strv "b", Cell.strv "c"], 0⟩ : Variable).values.filter
          Cell.isPresent)).length = 3) ∧
    (∃ pe, computeParameterEstimates dataC5w [reqC5w] = [pe] ∧ pe.groups.length = 3 ∧
      List.Forall₂ (fun (label : String) (g : GroupEstimate) =>
        g.weightedN = ((groupRowIdx (baseVarOf dataC5w reqC5w)
          ⟨"val", .numeric, [Cell.numv "1" 1, Cell.numv "2" 2, Cell.numv "3" 3], 0⟩
          label).length : ℚ) ∧
        (g.sampleSize : ℚ) ≤ g.weightedN ∧
        (g.weightedN = (g.sampleSize : ℚ) ↔
          ∀ i ∈ groupRowIdx (baseVarOf dataC5w reqC5w)
            ⟨"val", .numeric, [Cell.numv "1" 1, Cell.numv "2" 2, Cell.numv "3" 3], 0⟩ label,
            (getCell ⟨"val", .numeric,
              [Cell.numv "1" 1, Cell.numv "2" 2, Cell.numv "3" 3], 0⟩ i).isPresent = true))
        (groupLabels (baseVarOf dataC5w reqC5w)) pe.groups) :=
  ⟨⟨by decide, rfl, by decide, rfl, by decide⟩,
    weightedN_sampleSize dataC5w reqC5w
      ⟨"val", .numeric, [Cell.numv "1" 1, Cell.numv "2" 2, Cell.numv "3" 3], 0⟩
      ⟨"grp", .categorical, [Cell.strv "a", Cell.strv "b", Cell.strv "c"], 0⟩
      (by decide) rfl rfl (by decide) (by decide) rfl (by decide)⟩

theorem zipWith_mul_flip (xs ws : List ℚ) :
    List.zipWith (· * ·) xs ws = List.zipWith (fun w x => w * x) ws xs := by
  induction xs generalizing ws with
  | nil => cases ws <;> rfl
  | cons a t ih =>
    cases ws with
    | nil => rfl
    | cons b u => simp only [List.zipWith_cons_cons, ih, mul_comm]

theorem calculateWeightedMean_eq_spec (xs ws : List ℚ) :
    calculateWeightedMean xs ws = specMeanEstimate xs ws := by
  unfold calculateWeightedMean specMeanEstimate
  rw [zipWith_mul_flip]

theorem calculateMarginOfError_eq_spec (xs ws : List ℚ) :
    calculateMarginOfError xs ws = specMeanMoE xs ws := by
  simp only [calculateMarginOfError, specMeanMoE, calculateWeightedMean_eq_spec]
  rw [List.zipWith_comm]

/-- Claim C6 counterexample: the present values 10 and 20 sit at rows 1
and 2, whose own weights are 5 and 3, so the claimed estimate is
(5·10+3·20)/8 = 110/8; the code instead pairs them with the first two
weights 2 and 5 of the group's row list and returns
(2·10+5·20)/7 = 120/7. -/
theorem weighted_mean_pairing_cex :
    ((computeParameterEstimates dataC6 [reqC6]).map fun pe =>
      pe.groups.map fun g => g.estimate) = [[120 / 7]] ∧ (120 / 7 : ℚ) ≠ 110 / 8 :=
  ⟨by decide, by decide⟩

/-- Claim C6 (amended): for a MEAN estimation on a numeric column with a
weight column, each group's point estimate is Σ(wᵢxᵢ)/Σwᵢ and its margin
of error 1.96·sqrt(weightedVariance/effectiveSampleSize), where x
enumerates the present parseable values of the estimating column in the
group's row order and w is the prefix of the group's row-weight sequence
of the same length — the i-th present value is paired with the weight of
the group's i-th row, not with the weight of its own row. -/
theorem weighted_mean_pairing (data : SurveyData) (r : EstRequest) (ev wvar : Variable)
    (wname : String)
    (hev : data.vars.find? (fun v => v.name == r.estimatingParameter) = some ev)
    (ht : ev.type = .numeric)
    (hagg : r.aggregationType = "Mean")
    (hw : r.weightVariable = some wname)
    (hwv : data.vars.find? (fun v => v.name == wname) = some wvar) :
    ∃ pe, computeParameterEstimates data [r] = [pe] ∧
      List.Forall₂ (fun (label : String) (g : GroupEstimate) =>
        g.estimate = specMeanEstimate
          (((groupRowIdx (baseVarOf data r) ev label).map (getCell ev)).filter
            Cell.isPresent |>.filterMap Cell.parseNum)
          ((rowWeights (weightVarOf data r) (groupRowIdx (baseVarOf data r) ev label)).take
            (((groupRowIdx (baseVarOf data r) ev label).map (getCell ev)).filter
              Cell.isPresent |>.filterMap Cell.parseNum).length) ∧
        g.marginOfError = specMeanMoE
          (((groupRowIdx (baseVarOf data r) ev label).map (getCell ev)).filter
            Cell.isPresent |>.filterMap Cell.parseNum)
          ((rowWeights (weightVarOf data r) (groupRowIdx (baseVarOf data r) ev label)).take
            (((groupRowIdx (baseVarOf data r) ev label).map (getCell ev)).filter
              Cell.isPresent |>.filterMap Cell.parseNum).length))
        (groupLabels (baseVarOf data r)) pe.groups := by
  have hpe : computeParameterEstimates data [r] =
      [{ estimatingParameter := r.estimatingParameter
         baseParameter := r.baseParameter
         aggregationType := r.aggregationType
         weightVariable := r.weightVariable
         groups := (groupLabels (baseVarOf data r)).map
           (mkGroupEstimate ev (baseVarOf data r) (weightVarOf data r) r.aggregationType) }] := by
    simp only [computeParameterEstimates, List.filterMap_cons, List.filterMap_nil, hev]
  refine ⟨_, hpe, ?_⟩
  rw [List.forall₂_map_right_iff, List.forall₂_same]
  intro label hlab
  simp only [mkGroupEstimate]
  rw [if_pos ⟨hagg, ht⟩]
  exact ⟨calculateWeightedMean_eq_spec _ _, calculateMarginOfError_eq_spec _ _⟩

/-- Witness for C6 at the weighted-mean input of the counterexample. -/
theorem weighted_mean_pairing_wit :
    ((dataC6.vars.find? (fun v => v.name == reqC6.estimatingParameter) =
        some ⟨"income", .numeric, [Cell.missing, Cell.numv "10" 10, Cell.numv "20" 20], 0⟩) ∧
      reqC6.aggregationType = "Mean" ∧ reqC6.weightVariable = some "w" ∧
      (dataC6.vars.find? (fun v => v.name == "w") =
        some ⟨"w", .numeric, [Cell.numv "2" 2, Cell.numv "5" 5, Cell.numv "3" 3], 0⟩)) ∧
    (∃ pe, computeParameterEstimates dataC6 [reqC6] = [pe] ∧
      List.Forall₂ (fun (label : String) (g : GroupEstimate) =>
        g.estimate = specMeanEstimate
          (((groupRowIdx (baseVarOf dataC6 reqC6)
              ⟨"income", .numeric, [Cell.missing, Cell.numv "10" 10, Cell.numv "20" 20], 0⟩
              label).map (getCell
                ⟨"income", .numeric,
                  [Cell.missing, Cell.numv "10" 10, Cell.numv "20" 20], 0⟩)).filter
            Cell.isPresent |>.filterMap Cell.parseNum)
          ((rowWeights (weightVarOf dataC6 reqC6) (groupRowIdx (baseVarOf dataC6 reqC6)
              ⟨"income", .numeric, [Cell.missing, Cell.numv "10" 10, Cell.numv "20" 20], 0⟩
              label)).take
            (((groupRowIdx (baseVarOf dataC6 reqC6)
                ⟨"income", .numeric, [Cell.missing, Cell.numv "10" 10, Cell.numv "20" 20], 0⟩
                label).map (getCell
                  ⟨"income", .numeric,
                    [Cell.missing, Cell.numv "10" 10, Cell.numv "20" 20], 0⟩)).filter
              Cell.isPresent |>.filterMap Cell.parseNum).length) ∧
        g.marginOfError = specMeanMoE
          (((groupRowIdx (baseVarOf dataC6 reqC6)
              ⟨"income", .numeric, [Cell.missing, Cell.numv "10" 10, Cell.numv "20" 20], 0⟩
              label).map (getCell
                ⟨"income", .numeric,
                  [Cell.missing, Cell.numv "10" 10, Cell.numv "20" 20], 0⟩)).filter
            Cell.isPresent |>.filterMap Cell.parseNum)
          ((rowWeights (weightVarOf dataC6 reqC6) (groupRowIdx (baseVarOf dataC6 reqC6)
              ⟨"income", .numeric, [Cell.missing, Cell.numv "10" 10, Cell.numv "20" 20], 0⟩
              label)).take
            (((groupRowIdx (baseVarOf dataC6 reqC6)
                ⟨"income", .numeric, [Cell.missing, Cell.numv "10" 10, Cell.numv "20" 20], 0⟩
                label).map (getCell
                  ⟨"income", .numeric,
                    [Cell.missing, Cell.numv "10" 10, Cell.numv "20" 20], 0⟩)).filter
              Cell.isPresent |>.filterMap Cell.parseNum).length))
        (groupLabels (baseVarOf dataC6 reqC6)) pe.groups) :=
  ⟨⟨by decide, rfl, rfl, by decide⟩,
    weighted_mean_pairing dataC6 reqC6
      ⟨"income", .numeric, [Cell.missing, Cell.numv "10" 10, Cell.numv "20" 20], 0⟩
      ⟨"w", .numeric, [Cell.numv "2" 2, Cell.numv "5" 5, Cell.numv "3" 3], 0⟩
      "w" (by decide) rfl rfl rfl (by decide)⟩

theorem foldl_min_le_init (t : List ℚ) (acc : ℚ) : t.foldl min acc ≤ acc := by
  induction t generalizing acc with
  | nil => exact le_refl acc
  | cons a u ih => exact le_trans (ih (min acc a)) (min_le_left acc a)

theorem foldl_min_le_mem (t : List ℚ) (acc : ℚ) : ∀ x ∈ t, t.foldl min acc ≤ x := by
  induction t generalizing acc with
  | nil => intro x hx; exact absurd hx (List.not_mem_nil x)
  | cons a u ih =>
    intro x hx
    rcases List.mem_cons.mp hx with rfl | hxu
    · exact le_trans (foldl_min_le_init u (min acc x)) (min_le_right acc x)
    · exact ih (min acc a) x hxu

theorem init_le_foldl_max (t : List ℚ) (acc : ℚ) : acc ≤ t.foldl max acc := by
  induction t generalizing acc with
  | nil => exact le_refl acc
  | cons a u ih => exact le_trans (le_max_left acc a) (ih (max acc a))

theorem mem_le_foldl_max (t : List ℚ) (acc : ℚ) : ∀ x ∈ t, x ≤ t.foldl max acc := by
  induction t generalizing acc with
  | nil => intro x hx; exact absurd hx (List.not_mem_nil x)
  | cons a u ih =>
    intro x hx
    rcases List.mem_cons.mp hx with rfl | hxu
    · exact le_trans (le_max_right acc x) (init_le_foldl_max u (max acc x))
    · exact ih (max acc a) x hxu

theorem jsMinList_le (xs : List ℚ) : ∀ x ∈ xs, jsMinList xs ≤ x := by
  cases xs with
  | nil => intro x hx; exact absurd hx (List.not_mem_nil x)
  | cons h t =>
    intro x hx
    rcases List.mem_cons.mp hx with rfl | hxt
    · exact foldl_min_le_init t x
    · exact foldl_min_le_mem t h x hxt

theorem le_jsMaxList (xs : List ℚ) : ∀ x ∈ xs, x ≤ jsMaxList xs := by
  cases xs with
  | nil => intro x hx; exact absurd hx (List.not_mem_nil x)
  | cons h t =>
    intro x hx
    rcases List.mem_cons.mp hx with rfl | hxt
    · exact init_le_foldl_max t x
    · exact mem_le_foldl_max t h x hxt

theorem sum_map_range (B : ℕ) (g : ℕ → ℕ) :
    ((List.range B).map g).sum = ∑ i ∈ Finset.range B, g i := by
  induction B with
  | zero => rfl
  | succ n ih =>
    rw [List.range_succ, List.map_append, List.sum_append, Finset.sum_range_succ, ih]
    simp

theorem sum_ite_hit (B : ℕ) (c : ℤ) (hc0 : 0 ≤ c) (hcB : c < B) :
    (∑ i ∈ Finset.range B, if c = (i : ℤ) then 1 else 0) = 1 := by
  have hrw : ∀ i ∈ Finset.range B, (if c = (i : ℤ) then 1 else 0) =
      if i = c.toNat then 1 else 0 := by
    intro i _
    congr 1
    rw [eq_iff_iff]
    constructor
    · intro hci
      rw [hci, Int.toNat_ofNat]
    · intro hic
      rw [hic, Int.toNat_of_nonneg hc0]
  rw [Finset.sum_congr rfl hrw, Finset.sum_ite_eq' (Finset.range B) c.toNat fun _ => 1,
    if_pos (Finset.mem_range.mpr (by omega))]

theorem length_eq_sum_bin_counts (l : List ℚ) (B : ℕ) (f : ℚ → ℤ)
    (h : ∀ x ∈ l, 0 ≤ f x ∧ f x < B) :
    (∑ i ∈ Finset.range B, (l.filter fun v => f v = (i : ℤ)).length) = l.length := by
  induction l with
  | nil => simp
  | cons x t ih =>
    have hx := h x (List.mem_cons_self x t)
    have ht := fun y hy => h y (List.mem_cons_of_mem x hy)
    have hsplit : ∀ i : ℕ, ((x :: t).filter fun v => f v = (i : ℤ)).length =
        (t.filter fun v => f v = (i : ℤ)).length + (if f x = (i : ℤ) then 1 else 0) := by
      intro i
      by_cases hfx : f x = (i : ℤ)
      · simp [List.filter_cons, hfx]
      · simp [List.filter_cons, hfx]
    simp only [hsplit]
    rw [Finset.sum_add_distrib, ih ht, sum_ite_hit B (f x) hx.1 hx.2, List.length_cons]

/-- Claim C7 counterexample: on the constant column [5, 5] the bin width
is 0, the JavaScript bin index is NaN and the histogram update throws, so
no histogram (in particular no single bin holding both values) is
produced; the model returns `none`. -/
theorem histogram_sum_cex : numericHistogram cexVarC7 = none := by decide

/-- Claim C7 (amended): for a numeric column whose present parseable
values are not all equal (bin width nonzero), the histogram has 20 bins
whose counts sum exactly to the number of present numeric values; when
all values are equal the bin width is 0, the bin-index computation
divides by zero (NaN) and the code produces no histogram at all. -/
theorem histogram_sum (v : Variable)
    (hmm : jsMinList (v.values.filterMap Cell.parseNum) ≠
      jsMaxList (v.values.filterMap Cell.parseNum)) :
    ∃ h, numericHistogram v = some h ∧ h.length = 20 ∧
      (h.map HistBin.count).sum = (v.values.filterMap Cell.parseNum).length := by
  set vals := v.values.filterMap Cell.parseNum with hvals
  have hne : vals ≠ [] := by
    intro hnil
    rw [hnil] at hmm
    exact hmm rfl
  have hmnmx : jsMinList vals < jsMaxList vals := by
    obtain ⟨x, hx⟩ := List.exists_mem_of_ne_nil vals hne
    exact lt_of_le_of_ne (le_trans (jsMinList_le vals x hx) (le_jsMaxList vals x hx)) hmm
  have hwidth : (jsMaxList vals - jsMinList vals) / (20 : ℕ) ≠ 0 := by
    refine ne_of_gt (div_pos (by linarith) (by norm_num))
  have hbounds : ∀ x ∈ vals, 0 ≤ binIdx (jsMinList vals)
      ((jsMaxList vals - jsMinList vals) / (20 : ℕ)) 20 x ∧
      binIdx (jsMinList vals) ((jsMaxList vals - jsMinList vals) / (20 : ℕ)) 20 x < 20 := by
    intro x hx
    have hw : (0 : ℚ) < (jsMaxList vals - jsMinList vals) / (20 : ℕ) := by
      refine div_pos (by linarith) (by norm_num)
    constructor
    · refine le_min (Int.floor_nonneg.mpr (div_nonneg ?_ (le_of_lt hw))) (by norm_num)
      have := jsMinList_le vals x hx
      linarith
    · calc binIdx (jsMinList vals) ((jsMaxList vals - jsMinList vals) / (20 : ℕ)) 20 x
          ≤ (20 : ℤ) - 1 := min_le_right _ _
        _ < 20 := by norm_num
  have hsome : numericHistogram v = some ((List.range 20).map fun (i : ℕ) =>
      ({ lo := jsMinList vals + (i : ℚ) * ((jsMaxList vals - jsMinList vals) / (20 : ℕ))
         hi := jsMinList vals + ((i : ℚ) + 1) * ((jsMaxList vals - jsMinList vals) / (20 : ℕ))
         count := (vals.filter fun val => binIdx (jsMinList vals)
           ((jsMaxList vals - jsMinList vals) / (20 : ℕ)) 20 val = (i : ℤ)).length } :
        HistBin)) := by
    simp only [numericHistogram, generateHistogramData, ← hvals]
    rw [if_neg hwidth]
  refine ⟨_, hsome, ?_, ?_⟩
  · rw [List.length_map, List.length_range]
  · rw [List.map_map]
    have : (HistBin.count ∘ fun (i : ℕ) =>
        ({ lo := jsMinList vals + (i : ℚ) * ((jsMaxList vals - jsMinList vals) / (20 : ℕ))
           hi := jsMinList vals + ((i : ℚ) + 1) * ((jsMaxList vals - jsMinList vals) / (20 : ℕ))
           count := (vals.filter fun val => binIdx (jsMinList vals)
             ((jsMaxList vals - jsMinList vals) / (20 : ℕ)) 20 val = (i : ℤ)).length } :
          HistBin)) = fun (i : ℕ) => (vals.filter fun val => binIdx (jsMinList vals)
            ((jsMaxList vals - jsMinList vals) / (20 : ℕ)) 20 val = (i : ℤ)).length := rfl
    rw [this, sum_map_range]
    exact length_eq_sum_bin_counts vals 20 _ hbounds

/-- Witness for C7 at a three-value column with distinct values. -/
theorem histogram_sum_wit :
    (jsMinList (histVarC7w.values.filterMap Cell.parseNum) ≠
      jsMaxList (histVarC7w.values.filterMap Cell.parseNum)) ∧
    (∃ h, numericHistogram histVarC7w = some h ∧ h.length = 20 ∧
      (h.map HistBin.count).sum = (histVarC7w.values.filterMap Cell.parseNum).length) :=
  ⟨by decide, histogram_sum histVarC7w (by decide)⟩

theorem jsGet_eq_getElem (xs : List ℚ) (i : ℤ) (h0 : 0 ≤ i) (hl : i.toNat < xs.length) :
    jsGet xs i = xs[i.toNat] := by
  unfold jsGet
  rw [if_neg (not_lt.mpr h0), List.getD_eq_getElem _ _ hl]

theorem sorted_jsGet_mono (xs : List ℚ) (hs : List.Sorted (· ≤ ·) xs) (i j : ℤ)
    (h0 : 0 ≤ i) (hij : i ≤ j) (hj : j < (xs.length : ℤ)) : jsGet xs i ≤ jsGet xs j := by
  have h0j : 0 ≤ j := le_trans h0 hij
  have hjn : j.toNat < xs.length := by omega
  have hin : i.toNat < xs.length := by omega
  rw [jsGet_eq_getElem xs i h0 hin, jsGet_eq_getElem xs j h0j hjn]
  show xs.get ⟨i.toNat, hin⟩ ≤ xs.get ⟨j.toNat, hjn⟩
  exact hs.rel_get_of_le (Fin.mk_le_mk.mpr (by omega))

theorem first_le_sorted (xs : List ℚ) (hs : List.Sorted (· ≤ ·) xs) :
    ∀ x ∈ xs, jsGet xs 0 ≤ x := by
  intro x hx
  obtain ⟨i, hi, rfl⟩ := List.mem_iff_getElem.mp hx
  rw [jsGet_eq_getElem xs 0 (le_refl 0) (by omega)]
  show xs.get ⟨(0 : ℤ).toNat, _⟩ ≤ xs.get ⟨i, hi⟩
  exact hs.rel_get_of_le (Fin.mk_le_mk.mpr (by omega))

theorem sorted_le_last (xs : List ℚ) (hs : List.Sorted (· ≤ ·) xs) :
    ∀ x ∈ xs, x ≤ jsGet xs ((xs.length : ℤ) - 1) := by
  intro x hx
  obtain ⟨i, hi, rfl⟩ := List.mem_iff_getElem.mp hx
  rw [jsGet_eq_getElem xs ((xs.length : ℤ) - 1) (by omega) (by omega)]
  show xs.get ⟨i, hi⟩ ≤ xs.get ⟨((xs.length : ℤ) - 1).toNat, _⟩
  exact hs.rel_get_of_le (Fin.mk_le_mk.mpr (by omega))

theorem le_foldl_min (t : List ℚ) (acc c : ℚ) (hacc : c ≤ acc) (h : ∀ x ∈ t, c ≤ x) :
    c ≤ t.foldl min acc := by
  induction t generalizing acc with
  | nil => exact hacc
  | cons a u ih =>
    exact ih (min acc a) (le_min hacc (h a (List.mem_cons_self a u)))
      fun x hx => h x (List.mem_cons_of_mem a hx)

theorem foldl_max_le (t : List ℚ) (acc c : ℚ) (hacc : acc ≤ c) (h : ∀ x ∈ t, x ≤ c) :
    t.foldl max acc ≤ c := by
  induction t generalizing acc with
  | nil => exact hacc
  | cons a u ih =>
    exact ih (max acc a) (max_le hacc (h a (List.mem_cons_self a u)))
      fun x hx => h x (List.mem_cons_of_mem a hx)

theorem sorted_jsMinList (xs : List ℚ) (hs : List.Sorted (· ≤ ·) xs) (hne : xs ≠ []) :
    jsMinList xs = jsGet xs 0 := by
  cases xs with
  | nil => exact absurd rfl hne
  | cons h t =>
    have h0 : jsGet (h :: t) 0 = h := rfl
    rw [h0]
    show t.foldl min h = h
    refine le_antisymm (foldl_min_le_init t h) ?_
    exact le_foldl_min t h h (le_refl h) (List.rel_of_sorted_cons hs)

theorem sorted_jsMaxList (xs : List ℚ) (hs : List.Sorted (· ≤ ·) xs) (hne : xs ≠ []) :
    jsMaxList xs = jsGet xs ((xs.length : ℤ) - 1) := by
  cases xs with
  | nil => exact absurd rfl hne
  | cons h t =>
    show t.foldl max h = jsGet (h :: t) (((h :: t).length : ℤ) - 1)
    refine le_antisymm ?_ ?_
    · exact foldl_max_le t h _ (sorted_le_last _ hs h (List.mem_cons_self h t))
        fun x hx => sorted_le_last _ hs x (List.mem_cons_of_mem h hx)
    · have hlt : (((h :: t).length : ℤ) - 1).toNat < (h :: t).length := by
        simp only [List.length_cons]
        omega
      rw [jsGet_eq_getElem _ _ (by simp) hlt]
      exact le_jsMaxList (h :: t) _ (List.getElem_mem hlt)

theorem combo_lower (gl gu w : ℚ) (hglgu : gl ≤ gu) (hw0 : 0 ≤ w) :
    gl ≤ gl * (1 - w) + gu * w := by nlinarith

theorem combo_upper (gl gu w : ℚ) (hglgu : gl ≤ gu) (hw1 : w ≤ 1) :
    gl * (1 - w) + gu * w ≤ gu := by nlinarith

theorem percentile_index_nonneg (xs : List ℚ) (hne : xs ≠ []) (p : ℚ) (hp0 : 0 ≤ p) :
    0 ≤ ((xs.length : ℚ) - 1) * p := by
  have h1 : 1 ≤ xs.length := List.length_pos.mpr hne
  have h1q : (1 : ℚ) ≤ (xs.length : ℚ) := by exact_mod_cast h1
  exact mul_nonneg (by linarith) hp0

theorem percentile_ceil_le (xs : List ℚ) (hne : xs ≠ []) (p : ℚ) (hp0 : 0 ≤ p) (hp1 : p ≤ 1) :
    ⌈((xs.length : ℚ) - 1) * p⌉ ≤ (xs.length : ℤ) - 1 := by
  have h1 : 1 ≤ xs.length := List.length_pos.mpr hne
  have h1q : (1 : ℚ) ≤ (xs.length : ℚ) := by exact_mod_cast h1
  refine Int.ceil_le.mpr ?_
  push_cast
  nlinarith

theorem percentile_formula (xs : List ℚ) (hne : xs ≠ []) (p : ℚ) (hp0 : 0 ≤ p) (hp1 : p ≤ 1) :
    getPercentile xs p =
      jsGet xs ⌊((xs.length : ℚ) - 1) * p⌋ * (1 - Int.fract (((xs.length : ℚ) - 1) * p)) +
      jsGet xs ⌈((xs.length : ℚ) - 1) * p⌉ * Int.fract (((xs.length : ℚ) - 1) * p) := by
  have hguard : ¬ ((xs.length : ℤ) ≤ ⌈((xs.length : ℚ) - 1) * p⌉) := by
    have := percentile_ceil_le xs hne p hp0 hp1
    omega
  have hmod : jsMod1 (((xs.length : ℚ) - 1) * p) = Int.fract (((xs.length : ℚ) - 1) * p) := by
    unfold jsMod1
    rw [if_pos (percentile_index_nonneg xs hne p hp0)]
    rfl
  simp only [getPercentile]
  rw [if_neg hguard, hmod]

theorem getPercentile_bounds (xs : List ℚ) (hs : List.Sorted (· ≤ ·) xs) (hne : xs ≠ [])
    (p : ℚ) (hp0 : 0 ≤ p) (hp1 : p ≤ 1) :
    jsGet xs 0 ≤ getPercentile xs p ∧ getPercentile xs p ≤ jsGet xs ((xs.length : ℤ) - 1) := by
  rw [percentile_formula xs hne p hp0 hp1]
  have hfl0 : 0 ≤ ⌊((xs.length : ℚ) - 1) * p⌋ :=
    Int.floor_nonneg.mpr (percentile_index_nonneg xs hne p hp0)
  have hce : ⌈((xs.length : ℚ) - 1) * p⌉ ≤ (xs.length : ℤ) - 1 := percentile_ceil_le xs hne p hp0 hp1
  have hflce : ⌊((xs.length : ℚ) - 1) * p⌋ ≤ ⌈((xs.length : ℚ) - 1) * p⌉ := Int.floor_le_ceil _
  have hn : (0 : ℤ) < (xs.length : ℤ) := by
    have := List.length_pos.mpr hne
    omega
  have hglgu : jsGet xs ⌊((xs.length : ℚ) - 1) * p⌋ ≤ jsGet xs ⌈((xs.length : ℚ) - 1) * p⌉ :=
    sorted_jsGet_mono xs hs _ _ hfl0 (Int.floor_le_ceil _) (by omega)
  have hw0 : 0 ≤ Int.fract (((xs.length : ℚ) - 1) * p) := Int.fract_nonneg _
  have hw1 : Int.fract (((xs.length : ℚ) - 1) * p) ≤ 1 := le_of_lt (Int.fract_lt_one _)
  constructor
  · refine le_trans (sorted_jsGet_mono xs hs 0 _ (le_refl 0) hfl0 (by omega)) ?_
    exact combo_lower _ _ _ hglgu hw0
  · refine le_trans (combo_upper _ _ _ hglgu hw1) ?_
    exact sorted_jsGet_mono xs hs _ _ (le_trans hfl0 (Int.floor_le_ceil _)) hce (by omega)

theorem ceil_of_fract_ne_zero (q : ℚ) (h : Int.fract q ≠ 0) : ⌈q⌉ = ⌊q⌋ + 1 := by
  have hfr : Int.fract q = q - ⌊q⌋ := rfl
  have h0 : 0 < q - ⌊q⌋ := by
    have hnn : 0 ≤ q - ⌊q⌋ := by rw [← hfr]; exact Int.fract_nonneg q
    rcases lt_or_eq_of_le hnn with hlt | heq
    · exact hlt
    · exfalso
      apply h
      rw [hfr, ← heq]
  have h1 : (⌊q⌋ : ℚ) < q := by linarith
  have h2 : ⌊q⌋ < ⌈q⌉ := by
    have hcq : q ≤ (⌈q⌉ : ℚ) := Int.le_ceil q
    exact_mod_cast lt_of_lt_of_le h1 hcq
  have h3 : ⌈q⌉ ≤ ⌊q⌋ + 1 := Int.ceil_le_floor_add_one q
  omega

theorem getPercentile_mono (xs : List ℚ) (hs : List.Sorted (· ≤ ·) xs) (hne : xs ≠ [])
    (p q : ℚ) (hp0 : 0 ≤ p) (hpq : p ≤ q) (hq1 : q ≤ 1) :
    getPercentile xs p ≤ getPercentile xs q := by
  have hq0 : 0 ≤ q := le_trans hp0 hpq
  have hp1 : p ≤ 1 := le_trans hpq hq1
  have h1 : 1 ≤ xs.length := List.length_pos.mpr hne
  have h1q : (1 : ℚ) ≤ (xs.length : ℚ) := by exact_mod_cast h1
  set i := ((xs.length : ℚ) - 1) * p with hidef
  set j := ((xs.length : ℚ) - 1) * q with hjdef
  have hij : i ≤ j := mul_le_mul_of_nonneg_left hpq (by linarith)
  have hi0 : 0 ≤ i := percentile_index_nonneg xs hne p hp0
  have hj0 : 0 ≤ j := percentile_index_nonneg xs hne q hq0
  have hflj : ⌊i⌋ ≤ ⌊j⌋ := Int.floor_le_floor hij
  have hfl0 : 0 ≤ ⌊i⌋ := Int.floor_nonneg.mpr hi0
  have hflj0 : 0 ≤ ⌊j⌋ := Int.floor_nonneg.mpr hj0
  have hcei : ⌈i⌉ ≤ (xs.length : ℤ) - 1 := percentile_ceil_le xs hne p hp0 hp1
  have hcej : ⌈j⌉ ≤ (xs.length : ℤ) - 1 := percentile_ceil_le xs hne q hq0 hq1
  have hflcei : ⌊i⌋ ≤ ⌈i⌉ := Int.floor_le_ceil _
  have hflcej : ⌊j⌋ ≤ ⌈j⌉ := Int.floor_le_ceil _
  have hwi0 : 0 ≤ Int.fract i := Int.fract_nonneg _
  have hwi1 : Int.fract i ≤ 1 := le_of_lt (Int.fract_lt_one _)
  have hwj0 : 0 ≤ Int.fract j := Int.fract_nonneg _
  have hwj1 : Int.fract j ≤ 1 := le_of_lt (Int.fract_lt_one _)
  rw [percentile_formula xs hne p hp0 hp1, percentile_formula xs hne q hq0 hq1, ← hidef, ← hjdef]
  have hn : (0 : ℤ) < (xs.length : ℤ) := by omega
  by_cases hkk : ⌊i⌋ = ⌊j⌋
  · by_cases hfr : Int.fract i = 0
    · rw [hfr]
      have hgj : jsGet xs ⌊j⌋ ≤ jsGet xs ⌈j⌉ :=
        sorted_jsGet_mono xs hs _ _ hflj0 (Int.floor_le_ceil _) (by omega)
      calc jsGet xs ⌊i⌋ * (1 - 0) + jsGet xs ⌈i⌉ * 0
          = jsGet xs ⌊i⌋ := by ring
        _ = jsGet xs ⌊j⌋ := by rw [hkk]
        _ ≤ jsGet xs ⌊j⌋ * (1 - Int.fract j) + jsGet xs ⌈j⌉ * Int.fract j :=
            combo_lower _ _ _ hgj hwj0
    · have hfrj : Int.fract j ≠ 0 := by
        have hik : (⌊i⌋ : ℚ) < i := by
          have : Int.fract i = i - ⌊i⌋ := rfl
          have h0 := lt_of_le_of_ne hwi0 (Ne.symm hfr)
          rw [this] at h0
          linarith
        have hjk : (⌊j⌋ : ℚ) < j := by
          rw [← hkk]
          exact lt_of_lt_of_le hik hij
        have : Int.fract j = j - ⌊j⌋ := rfl
        intro hz
        rw [this] at hz
        have : (⌊j⌋ : ℚ) = j := by linarith
        linarith
      rw [ceil_of_fract_ne_zero i hfr, ceil_of_fract_ne_zero j hfrj, hkk]
      have hgj : jsGet xs ⌊j⌋ ≤ jsGet xs (⌊j⌋ + 1) := by
        refine sorted_jsGet_mono xs hs _ _ hflj0 (by omega) ?_
        rw [← ceil_of_fract_ne_zero j hfrj]
        omega
      have hwij : Int.fract i ≤ Int.fract j := by
        have hfi : Int.fract i = i - ⌊i⌋ := rfl
        have hfj : Int.fract j = j - ⌊j⌋ := rfl
        rw [hfi, hfj, ← hkk]
        linarith
      nlinarith [mul_le_mul_of_nonneg_right hgj hwi0]
  · have hkk2 : ⌊i⌋ < ⌊j⌋ := lt_of_le_of_ne hflj hkk
    have hgi : jsGet xs ⌊i⌋ ≤ jsGet xs ⌈i⌉ :=
      sorted_jsGet_mono xs hs _ _ hfl0 (Int.floor_le_ceil _) (by omega)
    have hgj : jsGet xs ⌊j⌋ ≤ jsGet xs ⌈j⌉ :=
      sorted_jsGet_mono xs hs _ _ hflj0 (Int.floor_le_ceil _) (by omega)
    have hmid : jsGet xs ⌈i⌉ ≤ jsGet xs ⌊j⌋ := by
      refine sorted_jsGet_mono xs hs _ _ (le_trans hfl0 (Int.floor_le_ceil _)) ?_ (by omega)
      have := Int.ceil_le_floor_add_one i
      omega
    calc jsGet xs ⌊i⌋ * (1 - Int.fract i) + jsGet xs ⌈i⌉ * Int.fract i
        ≤ jsGet xs ⌈i⌉ := combo_upper _ _ _ hgi hwi1
      _ ≤ jsGet xs ⌊j⌋ := hmid
      _ ≤ jsGet xs ⌊j⌋ * (1 - Int.fract j) + jsGet xs ⌈j⌉ * Int.fract j :=
          combo_lower _ _ _ hgj hwj0

/-- Claim C8: for every analyzed numeric column, the reported order
statistics satisfy min ≤ q1 ≤ median ≤ q3 ≤ max, where median, q1, q3
are the linear-interpolation percentiles at 0.5, 0.25, 0.75 of the
sorted present parseable values. -/
theorem quartile_order (v : Variable) (ht : v.type = .numeric)
    (hne : numericParsed v ≠ []) :
    ∃ a s, analyzeVariable v = some a ∧ a.kind = ColKind.num s ∧
      s.min ≤ s.q1 ∧ s.q1 ≤ s.median ∧ s.median ≤ s.q3 ∧ s.q3 ≤ s.max := by
  have hsorted : List.Sorted (· ≤ ·) (sortedVals v) := List.sorted_insertionSort _ _
  have hlen : (sortedVals v).length = (numericParsed v).length :=
    (List.perm_insertionSort _ _).length_eq
  have hsne : sortedVals v ≠ [] := by
    intro hnil
    apply hne
    have : (numericParsed v).length = 0 := by rw [← hlen, hnil]; rfl
    exact List.length_eq_zero.mp this
  have hnotempty : ¬ (sortedVals v).isEmpty = true := by
    simpa [List.isEmpty_iff] using hsne
  have hav : analyzeVariable v = some
      ⟨(sortedVals v).length, v.missing, ColKind.num
        ⟨jsMean (sortedVals v), getPercentile (sortedVals v) (1/2),
         getPercentile (sortedVals v) (1/4), getPercentile (sortedVals v) (3/4),
         jsMinList (sortedVals v), jsMaxList (sortedVals v),
         calculateStandardDeviation (sortedVals v), calculateSkewness (sortedVals v),
         calculateKurtosis (sortedVals v)⟩⟩ := by
    simp only [analyzeVariable, ht]
    rw [if_neg hnotempty]
  have hminq1 : jsMinList (sortedVals v) ≤ getPercentile (sortedVals v) (1/4) := by
    rw [sorted_jsMinList _ hsorted hsne]
    exact (getPercentile_bounds _ hsorted hsne (1/4) (by norm_num) (by norm_num)).1
  have hq1med : getPercentile (sortedVals v) (1/4) ≤ getPercentile (sortedVals v) (1/2) :=
    getPercentile_mono _ hsorted hsne (1/4) (1/2) (by norm_num) (by norm_num) (by norm_num)
  have hmedq3 : getPercentile (sortedVals v) (1/2) ≤ getPercentile (sortedVals v) (3/4) :=
    getPercentile_mono _ hsorted hsne (1/2) (3/4) (by norm_num) (by norm_num) (by norm_num)
  have hq3max : getPercentile (sortedVals v) (3/4) ≤ jsMaxList (sortedVals v) := by
    rw [sorted_jsMaxList _ hsorted hsne]
    exact (getPercentile_bounds _ hsorted hsne (3/4) (by norm_num) (by norm_num)).2
  exact ⟨_, _, hav, rfl, hminq1, hq1med, hmedq3, hq3max⟩

/-- Witness for C8 at a five-cell column with four parseable values. -/
theorem quartile_order_wit :
    (quartVarC8w.type = .numeric ∧ numericParsed quartVarC8w ≠ []) ∧
    (∃ a s, analyzeVariable quartVarC8w = some a ∧ a.kind = ColKind.num s ∧
      s.min ≤ s.q1 ∧ s.q1 ≤ s.median ∧ s.median ≤ s.q3 ∧ s.q3 ≤ s.max) :=
  ⟨⟨rfl, by decide⟩, quartile_order quartVarC8w rfl (by decide)⟩

/-- Witness for C4 at the Sum-on-categorical input. -/
theorem unsupported_aggregation_wit :
    (dataC4.vars.find? (fun v => v.name == reqC4.estimatingParameter) =
      some ⟨"city", .categorical, [Cell.strv "NYC", Cell.strv "LA"], 0⟩) ∧
    (∃ pe, computeParameterEstimates dataC4 [reqC4] = [pe] ∧
      ∀ g ∈ pe.groups, g.estimate = 0 ∧ g.marginOfError = 0) :=
  ⟨by decide, unsupported_aggregation dataC4 reqC4
    ⟨"city", .categorical, [Cell.strv "NYC", Cell.strv "LA"], 0⟩
    (by decide) (by decide) (Or.inl rfl)⟩

end Survey
